import Mathlib

/-!
Verification development for the Specter core: a shallow embedding of the
connection manager (src/main/handlers/vm.handler.ts), the terminal session
multiplexer and command lifecycle tracker (src/main/handlers/terminal.handler.ts),
the output analysis engine (src/main/services/OutputAnalyzer.ts) and the
attack-path progress store handlers (src/main/handlers/analysis.handler.ts,
src/main/handlers/database.handler.ts).

Text is modelled as `List Char`.  JavaScript regular expressions used by the
source are hand-translated into executable matchers; each matcher carries a
comment naming the regex it embeds.  Timestamps (`Date.now()`) and fresh ids
(`uuidv4()`) are passed in explicitly as parameters.
-/

namespace Specter

/-- Shorthand: the character list of a string literal. -/
def cs (s : String) : List Char := s.toList

/-- ASCII part of the JavaScript `\s` character class (all inputs considered
in this development are ASCII, so the unicode space members are irrelevant). -/
def isWsChar (c : Char) : Bool :=
  c = ' ' || c = '\t' || c = '\n' || c = '\r' || c = '\x0b' || c = '\x0c'

/-- Case-insensitive character comparison, as used by the `i` regex flag
(ASCII folding via `Char.toLower`). -/
def chEqCI (a b : Char) : Bool := a.toLower = b.toLower

/-- Try to strip `pat` (case-insensitively) from the front of `l`; return the
rest on success. -/
def stripCI : List Char → List Char → Option (List Char)
  | [], l => some l
  | _ :: _, [] => none
  | p :: ps, c :: rest => if chEqCI p c then stripCI ps rest else none

/-- Try to strip `pat` (case-sensitively) from the front of `l`. -/
def stripCS : List Char → List Char → Option (List Char)
  | [], l => some l
  | _ :: _, [] => none
  | p :: ps, c :: rest => if p = c then stripCS ps rest else none

/-- Case-sensitive substring test (JavaScript `String.prototype.includes`). -/
def containsSub (pat : List Char) : List Char → Bool
  | [] => pat.isEmpty
  | c :: rest => (stripCS pat (c :: rest)).isSome || containsSub pat rest

/-- Case-insensitive substring test (a `/literal/i` regex test). -/
def containsCI (pat : List Char) : List Char → Bool
  | [] => pat.isEmpty
  | c :: rest => (stripCI pat (c :: rest)).isSome || containsCI pat rest

/-- Leftmost-match scan: try the position matcher `m` at every position from
the left, returning the first success (the way a JavaScript regex engine finds
the first match of a pattern). -/
def scanOpt (m : List Char → Option α) : List Char → Option α
  | [] => m []
  | c :: rest =>
    match m (c :: rest) with
    | some r => some r
    | none => scanOpt m rest

/-- Boolean leftmost scan for test-only patterns. -/
def scanB (p : List Char → Bool) : List Char → Bool
  | [] => p []
  | c :: rest => p (c :: rest) || scanB p rest

/-- Value of a nonempty digit string (the digits consumed by `parseInt`). -/
def digitsToNat (l : List Char) : Nat :=
  l.foldl (fun n c => 10 * n + (c.toNat - '0'.toNat)) 0

/-- Embeds `\s+` at the front: requires at least one whitespace character (maximal
munch; every use site is followed by a non-whitespace literal, so greediness
is harmless). -/
def wsPlus : List Char → Option (List Char)
  | [] => none
  | c :: rest => if isWsChar c then some (rest.dropWhile isWsChar) else none

/-- The version capture group `(\d+\.\d+)` at the front: returns the matched
text when present. -/
def verAt (l : List Char) : Option (List Char) :=
  match l.span Char.isDigit with
  | (d1, '.' :: r2) =>
    if d1.isEmpty then none
    else
      match r2.span Char.isDigit with
      | (d2, _) => if d2.isEmpty then none else some (d1 ++ '.' :: d2)
  | _ => none

/-! ### OutputAnalyzer.ts: SERVICE_PATTERNS

Each service pattern of `SERVICE_PATTERNS` (all carry the `gi` flags, hence
case-insensitive matching) is embedded as a position matcher returning the raw
capture groups `(match[1], match[2])` of the first match; `analyzeOutput` then
derives `port`/`version` from them exactly as the source does. -/

/-- Raw capture groups of a regex match: `(match[1], match[2])`. -/
abbrev RegexGroups := Option (List Char) × Option (List Char)

/-- Position matcher for the alternative `(\d+)\/PROTO\s+open\s+SVC`
(group 1 = the port digits). -/
def portOpenG (proto svc : List Char) (l : List Char) : Option RegexGroups :=
  let (d, r1) := l.span Char.isDigit
  if d.isEmpty then none
  else
    ((stripCI proto r1).bind fun r2 =>
     (wsPlus r2).bind fun r3 =>
     (stripCI (cs "open") r3).bind fun r4 =>
     (wsPlus r4).bind fun r5 =>
     stripCI svc r5).map fun _ => (some d, none)

/-- Position matcher for a plain literal alternative with no capture groups. -/
def litG (s : List Char) (l : List Char) : Option RegexGroups :=
  (stripCI s l).map fun _ => (none, none)

/-- Position matcher for `NAME\/?(\d+\.\d+)?` where the version is capture
group 1 (nginx, apache, tomcat, mongodb, redis). -/
def nameVerG1 (nm : List Char) (l : List Char) : Option RegexGroups :=
  (stripCI nm l).map fun r1 =>
    let r2 := match r1 with
      | '/' :: t => t
      | t => t
    (verAt r2, none)

/-- Position matcher for the alternative `NAME\/?(\d+\.\d+)?` where the
version is capture group 2 (second alternative of the mysql pattern). -/
def nameVerG2 (nm : List Char) (l : List Char) : Option RegexGroups :=
  (stripCI nm l).map fun r1 =>
    let r2 := match r1 with
      | '/' :: t => t
      | t => t
    (none, verAt r2)

/-- Alternation of two position matchers, first alternative preferred (JS
regex `A|B` at a fixed position). -/
def altG (a b : List Char → Option RegexGroups) (l : List Char) : Option RegexGroups :=
  match a l with
  | some r => some r
  | none => b l

/-- Embeds `(\d+)\/tcp\s+open\s+(http|https)` — group 2 records which alternative
matched (`http` always wins, being a text of `https` tried first). -/
def httpG (l : List Char) : Option RegexGroups :=
  let (d, r1) := l.span Char.isDigit
  if d.isEmpty then none
  else
    ((stripCI (cs "/tcp") r1).bind fun r2 =>
     (wsPlus r2).bind fun r3 =>
     (stripCI (cs "open") r3).bind fun r4 =>
     wsPlus r4).bind fun r5 =>
      if (stripCI (cs "http") r5).isSome then some (some d, some (cs "http"))
      else if (stripCI (cs "https") r5).isSome then some (some d, some (cs "https"))
      else none

/-- The single mandatory `[\s-]` character class. -/
def wsDashOne : List Char → Option (List Char)
  | [] => none
  | c :: rest => if isWsChar c || c = '-' then some rest else none

/-- Embeds `microsoft[\s-]iis\/?(\d+\.\d+)?` (group 1 = version). -/
def iisG (l : List Char) : Option RegexGroups :=
  ((stripCI (cs "microsoft") l).bind fun r1 =>
   (wsDashOne r1).bind fun r2 =>
   stripCI (cs "iis") r2).map fun r3 =>
    let r4 := match r3 with
      | '/' :: t => t
      | t => t
    (verAt r4, none)

/-- Second alternative of the mssql pattern: `microsoft[\s-]sql`. -/
def msSqlAltG (l : List Char) : Option RegexGroups :=
  ((stripCI (cs "microsoft") l).bind fun r1 =>
   (wsDashOne r1).bind fun r2 =>
   stripCI (cs "sql") r2).map fun _ => (none, none)

/-- Second alternative of the ssh pattern: `openssh[\s-]?(\d+\.\d+)?`
(group 2 = version). -/
def opensshG (l : List Char) : Option RegexGroups :=
  (stripCI (cs "openssh") l).map fun r1 =>
    let r2 := match r1 with
      | c :: t => if isWsChar c || c = '-' then t else c :: t
      | [] => ([] : List Char)
    (none, verAt r2)

/-- The `SERVICE_PATTERNS` table of OutputAnalyzer.ts, in source (insertion)
order, each regex replaced by its position matcher. -/
def servicePatterns : List (String × (List Char → Option RegexGroups)) :=
  [ ("http", httpG),
    ("nginx", nameVerG1 (cs "nginx")),
    ("apache", nameVerG1 (cs "apache")),
    ("iis", iisG),
    ("tomcat", nameVerG1 (cs "tomcat")),
    ("mysql", altG (portOpenG (cs "/tcp") (cs "mysql")) (nameVerG2 (cs "mysql"))),
    ("postgres", altG (portOpenG (cs "/tcp") (cs "postgresql")) (litG (cs "postgres"))),
    ("mssql", altG (portOpenG (cs "/tcp") (cs "ms-sql")) msSqlAltG),
    ("mongodb", nameVerG1 (cs "mongodb")),
    ("redis", nameVerG1 (cs "redis")),
    ("ssh", altG (portOpenG (cs "/tcp") (cs "ssh")) opensshG),
    ("ldap", portOpenG (cs "/tcp") (cs "ldap")),
    ("kerberos", altG (portOpenG (cs "/tcp") (cs "kerberos")) (litG (cs "88/tcp"))),
    ("smb", altG (portOpenG (cs "/tcp") (cs "microsoft-ds"))
             (altG (litG (cs "445/tcp")) (litG (cs "139/tcp")))),
    ("rdp", altG (portOpenG (cs "/tcp") (cs "ms-wbt-server")) (litG (cs "3389/tcp"))),
    ("winrm", altG (litG (cs "5985/tcp")) (litG (cs "5986/tcp"))),
    ("smtp", portOpenG (cs "/tcp") (cs "smtp")),
    ("pop3", portOpenG (cs "/tcp") (cs "pop3")),
    ("imap", portOpenG (cs "/tcp") (cs "imap")),
    ("ftp", portOpenG (cs "/tcp") (cs "ftp")),
    ("dns", altG (portOpenG (cs "/tcp") (cs "domain")) (litG (cs "53/tcp"))),
    ("snmp", altG (portOpenG (cs "/udp") (cs "snmp")) (litG (cs "161/udp"))) ]

/-- A detected service (interface `DetectedService` of OutputAnalyzer.ts).
`version` keeps the raw matched text. -/
structure DetectedService where
  name : String
  port : Option Nat
  version : Option (List Char)
  confidence : ℚ
deriving DecidableEq, Repr

/-- Embeds `OutputAnalyzerService.analyzeOutput`: runs every service pattern against
the output; the `seen` set keeps only the first match per service name, and
`port`/`version` are derived from the raw groups as
`match[1] ? parseInt(match[1]) : undefined` and `match[2] || undefined`
(every group our matchers produce is a nonempty digit-led string, on which
`parseInt` consumes the leading digit run). -/
def analyzeStep (output : List Char) (acc : List String × List DetectedService)
    (p : String × (List Char → Option RegexGroups)) : List String × List DetectedService :=
  match scanOpt p.2 output with
  | some (g1, g2) =>
    if acc.1.contains p.1 then acc
    else (p.1 :: acc.1,
          acc.2 ++ [{ name := p.1,
                      port := match g1 with
                        | some d =>
                          if d.isEmpty then none
                          else some (digitsToNat (d.takeWhile Char.isDigit))
                        | none => none,
                      version := g2,
                      confidence := 9 / 10 }])
  | none => acc

def analyzeOutput (output : List Char) : List DetectedService :=
  (servicePatterns.foldl (analyzeStep output) (([], []) : List String × List DetectedService)).2

/-! ### OutputAnalyzer.ts: RECOMMENDATIONS and getRecommendations -/

/-- One entry of the static `RECOMMENDATIONS` table. -/
structure RecEntry where
  category : String
  commands : List String
  description : String
deriving DecidableEq, Repr

/-- A produced recommendation (interface `Recommendation`). -/
structure Recommendation where
  service : String
  category : String
  commands : List String
  description : String
deriving DecidableEq, Repr

/-- The static `RECOMMENDATIONS` record of OutputAnalyzer.ts; a name absent
from the record yields `[]` (the `undefined` guard in the source). -/
def recommendationTable : String → List RecEntry
  | "http" =>
    [ { category := "Enumeration",
        commands := ["gobuster dir -u http://TARGET -w /usr/share/wordlists/dirb/common.txt",
                     "nikto -h http://TARGET"],
        description := "Enumerate web directories and scan for common vulnerabilities" },
      { category := "Vulnerability",
        commands := ["nuclei -u http://TARGET", "whatweb http://TARGET"],
        description := "Scan for known vulnerabilities and identify technologies" } ]
  | "mysql" =>
    [ { category := "Enumeration",
        commands := ["mysql -h TARGET -u root -p",
                     "nmap -sV -p 3306 --script mysql-enum TARGET"],
        description := "Enumerate MySQL database" },
      { category := "Brute Force",
        commands := ["hydra -l root -P /usr/share/wordlists/rockyou.txt TARGET mysql"],
        description := "Brute force MySQL credentials" } ]
  | "smb" =>
    [ { category := "Enumeration",
        commands := ["smbclient -L //TARGET -N", "enum4linux -a TARGET",
                     "crackmapexec smb TARGET"],
        description := "Enumerate SMB shares and users" },
      { category := "Vulnerability",
        commands := ["nmap -p 445 --script smb-vuln* TARGET"],
        description := "Check for SMB vulnerabilities (EternalBlue, etc.)" } ]
  | "ssh" =>
    [ { category := "Brute Force",
        commands := ["hydra -l root -P /usr/share/wordlists/rockyou.txt TARGET ssh"],
        description := "Brute force SSH credentials" },
      { category := "Enumeration",
        commands := ["ssh-audit TARGET"],
        description := "Audit SSH configuration" } ]
  | "ldap" =>
    [ { category := "Enumeration",
        commands := ["ldapsearch -x -H ldap://TARGET -b \"dc=domain,dc=local\"",
                     "nmap -p 389 --script ldap-search TARGET"],
        description := "Enumerate LDAP directory" } ]
  | "kerberos" =>
    [ { category := "Enumeration",
        commands := ["GetUserSPNs.py DOMAIN/user:password -dc-ip TARGET",
                     "GetNPUsers.py DOMAIN/ -usersfile users.txt -no-pass -dc-ip TARGET"],
        description := "Enumerate Kerberos SPNs and AS-REP roastable users" } ]
  | "ftp" =>
    [ { category := "Enumeration",
        commands := ["ftp TARGET", "nmap -sV -p 21 --script ftp-anon,ftp-bounce TARGET"],
        description := "Check for anonymous FTP access" } ]
  | "rdp" =>
    [ { category := "Vulnerability",
        commands := ["nmap -p 3389 --script rdp-vuln-ms12-020 TARGET"],
        description := "Check for RDP vulnerabilities" },
      { category := "Brute Force",
        commands := ["hydra -l Administrator -P /usr/share/wordlists/rockyou.txt TARGET rdp"],
        description := "Brute force RDP credentials" } ]
  | _ => []

/-- Embeds `OutputAnalyzerService.getRecommendations`: the nested push loops over the
services and their table entries, in input order. -/
def getRecommendations (services : List DetectedService) : List Recommendation :=
  services.foldl (fun acc s =>
    acc ++ (recommendationTable s.name).map (fun r =>
      { service := s.name, category := r.category,
        commands := r.commands, description := r.description })) []

/-! ### OutputAnalyzer.ts: PATH_PATTERNS and detectPathProgress

All `PATH_PATTERNS` regexes carry the `i` flag.  `.` in a JS regex does not
match line terminators, hence the `\n`/`\r` guards in `dotStar`. -/

/-- Embeds `.*K`: skip any number of non-newline characters, then match `k`. -/
def dotStar (k : List Char → Bool) : List Char → Bool
  | [] => k []
  | c :: rest => k (c :: rest) || (c ≠ '\n' && c ≠ '\r' && dotStar k rest)

/-- A single `.` (any character except a line terminator) then `k`. -/
def dotOne (k : List Char → Bool) : List Char → Bool
  | [] => false
  | c :: rest => c ≠ '\n' && c ≠ '\r' && k rest

/-- Literal (case-insensitive) then continuation. -/
def litThen (s : List Char) (k : List Char → Bool) (l : List Char) : Bool :=
  match stripCI s l with
  | some r => k r
  | none => false

/-- Always-true continuation (end of a pattern). -/
def patEnd (_ : List Char) : Bool := true

/-- Pattern `/nmap.*-s[STUA]/i` -/
def nmapScanTest (l : List Char) : Bool :=
  scanB (litThen (cs "nmap") (dotStar (litThen (cs "-s") (fun r =>
    match r with
    | c :: _ => c.toLower = 's' || c.toLower = 't' || c.toLower = 'u' || c.toLower = 'a'
    | [] => false)))) l

/-- Pattern `/Status:\s*200/i` -/
def statusOkTest (l : List Char) : Bool :=
  scanB (litThen (cs "status:") (fun r => litThen (cs "200") patEnd (r.dropWhile isWsChar))) l

/-- Pattern `/nmap.*--script.*vuln/i` -/
def nmapVulnTest (l : List Char) : Bool :=
  scanB (litThen (cs "nmap") (dotStar (litThen (cs "--script")
    (dotStar (litThen (cs "vuln") patEnd))))) l

/-- Pattern CVE dash four digits dash digits, flag i -/
def cveTest (l : List Char) : Bool :=
  scanB (litThen (cs "cve-") (fun r =>
    match r with
    | a :: b :: c :: d :: '-' :: e :: _ =>
      a.isDigit && b.isDigit && c.isDigit && d.isDigit && e.isDigit
    | _ => false)) l

/-- Pattern `/\[INFO\].*injectable/i` -/
def injectableTest (l : List Char) : Bool :=
  scanB (litThen (cs "[info]") (dotStar (litThen (cs "injectable") patEnd))) l

/-- Pattern `/database.*extracted/i` -/
def dbExtractedTest (l : List Char) : Bool :=
  scanB (litThen (cs "database") (dotStar (litThen (cs "extracted") patEnd))) l

/-- Pattern `/login.*success/i` -/
def loginSuccessTest (l : List Char) : Bool :=
  scanB (litThen (cs "login") (dotStar (litThen (cs "success") patEnd))) l

/-- Pattern `/password.*found/i` -/
def passwordFoundTest (l : List Char) : Bool :=
  scanB (litThen (cs "password") (dotStar (litThen (cs "found") patEnd))) l

/-- Pattern `/\[.*\].*:.*:.*password/i` -/
def credLineTest (l : List Char) : Bool :=
  scanB (litThen (cs "[") (dotStar (litThen (cs "]") (dotStar (litThen (cs ":")
    (dotStar (litThen (cs ":") (dotStar (litThen (cs "password") patEnd))))))))) l

/-- Pattern `/sudo.*-l/i` -/
def sudoListTest (l : List Char) : Bool :=
  scanB (litThen (cs "sudo") (dotStar (litThen (cs "-l") patEnd))) l

/-- Pattern `/pass.the.hash/i` -/
def passTheHashTest (l : List Char) : Bool :=
  scanB (litThen (cs "pass") (dotOne (litThen (cs "the") (dotOne (litThen (cs "hash") patEnd))))) l

/-- The `PATH_PATTERNS` table of OutputAnalyzer.ts in source order: stage
name, ordered pattern tests, fixed description. -/
def pathPatterns : List (String × List (List Char → Bool) × String) :=
  [ ("recon",
     ([nmapScanTest, containsCI (cs "masscan"), containsCI (cs "rustscan"),
       containsCI (cs "discovered open port"), containsCI (cs "host is up")],
      "Network reconnaissance detected")),
    ("web_enum",
     ([containsCI (cs "gobuster"), containsCI (cs "ffuf"), containsCI (cs "dirb"),
       containsCI (cs "dirsearch"), containsCI (cs "nikto"), containsCI (cs "wfuzz"),
       statusOkTest, containsCI (cs "found:")],
      "Web enumeration detected")),
    ("vuln_scan",
     ([nmapVulnTest, containsCI (cs "nikto"), containsCI (cs "nuclei"),
       cveTest, containsCI (cs "vulnerable")],
      "Vulnerability scanning detected")),
    ("sqli",
     ([containsCI (cs "sqlmap"), containsCI (cs "sql injection"),
       injectableTest, dbExtractedTest],
      "SQL injection testing detected")),
    ("auth_bypass",
     ([containsCI (cs "hydra"), containsCI (cs "medusa"), loginSuccessTest,
       passwordFoundTest, credLineTest],
      "Authentication bypass/brute force detected")),
    ("ad_enum",
     ([containsCI (cs "bloodhound"), containsCI (cs "ldapsearch"),
       containsCI (cs "enum4linux"), containsCI (cs "crackmapexec"),
       containsCI (cs "impacket"), containsCI (cs "getuserspns")],
      "Active Directory enumeration detected")),
    ("kerberos",
     ([containsCI (cs "getuserspns"), containsCI (cs "kerberoast"),
       containsCI (cs "asrep"), containsCI (cs "$krb5tgs$"), containsCI (cs "$krb5asrep$")],
      "Kerberos attack detected")),
    ("privesc",
     ([containsCI (cs "linpeas"), containsCI (cs "winpeas"), containsCI (cs "linenum"),
       sudoListTest, containsCI (cs "suid"), containsCI (cs "privilege")],
      "Privilege escalation enumeration detected")),
    ("lateral",
     ([containsCI (cs "psexec"), containsCI (cs "wmiexec"), containsCI (cs "smbexec"),
       containsCI (cs "evil-winrm"), passTheHashTest],
      "Lateral movement detected")) ]

/-- A detected path-progress signal (interface `PathProgress`; the `Date`
timestamp is the explicit `now`). -/
structure PathProgress where
  path : String
  status : String
  description : String
  timestamp : Nat
deriving DecidableEq, Repr

/-- Embeds `OutputAnalyzerService.detectPathProgress`: the first matching pattern of
a stage pushes one `detected` signal for that stage (then `break`). -/
def detectPathProgress (now : Nat) (output : List Char) : List PathProgress :=
  pathPatterns.foldl (fun acc g =>
    if g.2.1.any (fun t => t output) then
      acc ++ [{ path := g.1, status := "detected", description := g.2.2, timestamp := now }]
    else acc) []

/-! ### attack_path_progress rows and the three writers

The table (config.ts) has `id TEXT PRIMARY KEY`, a `UNIQUE(target_id, path_id,
step_id)` constraint, `findings_count` defaulting to 0 and nullable
`completed_at`.  Rows are modelled as a list; `.get` of a prepared SELECT
returns the first matching row. -/

/-- One row of `attack_path_progress`. -/
structure ProgressRow where
  id : String
  targetId : String
  pathId : String
  stepId : String
  status : String
  notes : Option String
  findingsCount : Nat
  completedAt : Option Nat
deriving DecidableEq, Repr

/-- One iteration of the loop in `OutputAnalyzerService.updatePathProgress`:
SELECT the first row with the same `(target_id, path_id)`; if found and not
`completed`, UPDATE the status of that row by id; if found and `completed`, do
nothing; otherwise INSERT a fresh row with step id `path + "_detect"` and the
description of the signal as notes. -/
def enginePathStep (tid newId : String) (p : PathProgress) (db : List ProgressRow) :
    List ProgressRow :=
  match db.find? (fun r => r.targetId = tid && r.pathId = p.path) with
  | some existing =>
    if existing.status ≠ "completed" then
      db.map (fun r => if r.id = existing.id then { r with status := p.status } else r)
    else db
  | none =>
    db ++ [{ id := newId, targetId := tid, pathId := p.path, stepId := p.path ++ "_detect",
             status := p.status, notes := some p.description, findingsCount := 0,
             completedAt := none }]

/-- The loop of `OutputAnalyzerService.updatePathProgress`, one
`enginePathStep` per detected signal; `idGen k` supplies the `uuidv4()` of
iteration `k`. -/
def updatePathProgressAux (idGen : Nat → String) (tid : String) :
    Nat → List PathProgress → List ProgressRow → List ProgressRow
  | _, [], db => db
  | k, p :: rest, db =>
    updatePathProgressAux idGen tid (k + 1) rest (enginePathStep tid (idGen k) p db)

/-- Embeds `OutputAnalyzerService.updatePathProgress`. -/
def updatePathProgress (idGen : Nat → String) (tid : String) (progress : List PathProgress)
    (db : List ProgressRow) : List ProgressRow :=
  updatePathProgressAux idGen tid 0 progress db

/-- The `analysis:updatePath` ipc handler (analysis.handler.ts): a plain
`UPDATE attack_path_progress SET status = ? WHERE target_id = ? AND
path_id = ?` — every row matching `(target_id, path_id)` takes the status;
no row is ever inserted. -/
def analysisUpdatePath (tid pathId status : String) (db : List ProgressRow) :
    List ProgressRow :=
  db.map (fun r =>
    if r.targetId = tid && r.pathId = pathId then { r with status := status } else r)

/-- The `db:attackPaths:updateProgress` ipc handler (database.handler.ts):
`INSERT ... ON CONFLICT(target_id, path_id, step_id) DO UPDATE SET status,
notes, findings_count, completed_at = excluded values`.  Thanks to the UNIQUE
constraint at most one row conflicts; the conflicting row keeps its id and
takes the excluded values.  `notes` is `data.notes || null` (an empty string
is falsy), `findings_count` is `data.findingsCount || 0`, and `completed_at`
is the current time iff the new status is `completed`. -/
def dbUpdateProgress (newId : String) (now : Nat) (tid pathId stepId status : String)
    (notes : Option String) (findingsCount : Option Nat) (db : List ProgressRow) :
    List ProgressRow :=
  let newNotes : Option String := match notes with
    | some n => if n.isEmpty then none else some n
    | none => none
  let newCompletedAt : Option Nat := if status = "completed" then some now else none
  let newCount : Nat := findingsCount.getD 0
  if db.any (fun r => r.targetId = tid && r.pathId = pathId && r.stepId = stepId) then
    db.map (fun r =>
      if r.targetId = tid && r.pathId = pathId && r.stepId = stepId then
        { r with status := status, notes := newNotes, findingsCount := newCount,
                 completedAt := newCompletedAt }
      else r)
  else
    db ++ [{ id := newId, targetId := tid, pathId := pathId, stepId := stepId,
             status := status, notes := newNotes, findingsCount := newCount,
             completedAt := newCompletedAt }]

/-! ### target metadata and the full analyze pipeline -/

/-- The slice of the target metadata JSON blob that
`storeDetectedServices` writes (`detectedServices`, `lastScanTime`); other
keys of the blob are never read by the analyzer and are not modelled.  A
missing key is `none`. -/
structure TargetMeta where
  detectedServices : Option (List DetectedService)
  lastScanTime : Option Nat
deriving DecidableEq, Repr

/-- One row of `targets` (only the columns the analyzer touches). -/
structure TargetRow where
  id : String
  metadata : Option TargetMeta
deriving DecidableEq, Repr

/-- Embeds `OutputAnalyzerService.storeDetectedServices`: if the target row exists,
replace the metadata fields `detectedServices` and `lastScanTime` with the fresh
values (overwrite, not append); if the target is absent, do nothing. -/
def storeDetectedServices (tid : String) (now : Nat) (services : List DetectedService)
    (targets : List TargetRow) : List TargetRow :=
  if targets.any (fun t => t.id = tid) then
    targets.map (fun t =>
      if t.id = tid then
        { t with metadata := some { detectedServices := some services,
                                    lastScanTime := some now } }
      else t)
  else targets

/-- The state `OutputAnalyzerService.analyze` persists into: the targets
table and the attack_path_progress table. -/
structure AnalyzerState where
  targets : List TargetRow
  pathdb : List ProgressRow
deriving DecidableEq, Repr

/-- The value returned by `analyze`. -/
structure AnalyzeResult where
  services : List DetectedService
  recommendations : List Recommendation
  pathProgress : List PathProgress
deriving DecidableEq, Repr

/-- Embeds `OutputAnalyzerService.analyze`: run the three detectors, then persist
services (when any) and path progress (when any). -/
def analyze (idGen : Nat → String) (now : Nat) (tid : String) (output : List Char)
    (st : AnalyzerState) : AnalyzeResult × AnalyzerState :=
  let services := analyzeOutput output
  let recommendations := getRecommendations services
  let pathProgress := detectPathProgress now output
  let st1 := if services.isEmpty then st
             else { st with targets := storeDetectedServices tid now services st.targets }
  let st2 := if pathProgress.isEmpty then st1
             else { st1 with pathdb := updatePathProgress idGen tid pathProgress st1.pathdb }
  ({ services := services, recommendations := recommendations, pathProgress := pathProgress },
   st2)

/-- The stored `detectedServices` of a target, as read back from the metadata
blob of a targets table. -/
def storedServicesT (targets : List TargetRow) (tid : String) :
    Option (List DetectedService) :=
  (targets.find? (fun t => t.id = tid)).bind (fun t =>
    t.metadata.bind (fun m => m.detectedServices))

/-- The stored `detectedServices` of the target in an analyzer state. -/
def storedServices (st : AnalyzerState) (tid : String) : Option (List DetectedService) :=
  storedServicesT st.targets tid

/-! ### vm.handler.ts: the connection manager

Module-level mutable state: `sshClient` (the ssh2 Client, abstracted as an
opaque numeric handle), `vmStatus` and `connectionStartTime`.  Asynchronous
handshake outcomes (`ready` / `error` events) are passed in explicitly. -/

/-- The `VMStatus` record of vm.handler.ts. -/
structure VMStatus where
  connected : Bool
  connecting : Bool
  host : Option String
  username : Option String
  lastError : Option String
deriving DecidableEq, Repr

/-- The module state of the connection manager. -/
structure VMState where
  sshClient : Option Nat
  vmStatus : VMStatus
  connectionStartTime : Option Nat
deriving DecidableEq, Repr

/-- The connection phase in the sense of the spec, as derived from the status flags. -/
inductive Phase
  | Disconnected
  | Connecting
  | Connected
deriving DecidableEq, Repr

/-- Phase of the connection state: `connected` wins, then `connecting`. -/
def phase (st : VMState) : Phase :=
  if st.vmStatus.connected then .Connected
  else if st.vmStatus.connecting then .Connecting
  else .Disconnected

/-- A `vm:status-changed` push notification carrying the status snapshot. -/
inductive VMEvent
  | statusChanged (s : VMStatus)
deriving DecidableEq, Repr

/-- Result shape of the `vm:connect` ipc handler. -/
structure ConnectResult where
  success : Bool
  message : Option String
  error : Option String
deriving DecidableEq, Repr

/-- Which ssh2 event settles a connection attempt. -/
inductive ConnOutcome
  | ready
  | failed (msg : String)
deriving DecidableEq, Repr

/-- The `vm:connect` ipc handler.  If a client exists and the status says
connected, return success immediately without touching state or notifying.
Otherwise: publish a `Connecting` status, create a fresh client and settle on
the handshake outcome (`ready` → Connected with `connectionStartTime = now`;
`error` → Disconnected with `lastError`, start time untouched). -/
def vmConnect (st : VMState) (cfgHost cfgUser : String) (newClient : Nat)
    (outcome : ConnOutcome) (now : Nat) : ConnectResult × VMState × List VMEvent :=
  if st.sshClient.isSome && st.vmStatus.connected then
    ({ success := true, message := some "Already connected", error := none }, st, [])
  else
    let s1 : VMStatus := { connected := false, connecting := true,
                           host := some cfgHost, username := some cfgUser, lastError := none }
    match outcome with
    | .ready =>
      let s2 : VMStatus := { connected := true, connecting := false,
                             host := some cfgHost, username := some cfgUser, lastError := none }
      ({ success := true, message := some "Connected successfully", error := none },
       { sshClient := some newClient, vmStatus := s2, connectionStartTime := some now },
       [.statusChanged s1, .statusChanged s2])
    | .failed msg =>
      let s2 : VMStatus := { connected := false, connecting := false,
                             host := none, username := none, lastError := some msg }
      ({ success := false, message := none, error := some msg },
       { sshClient := some newClient, vmStatus := s2,
         connectionStartTime := st.connectionStartTime },
       [.statusChanged s1, .statusChanged s2])

/-- The client-level `close` callback of vm.handler.ts: blank status (both
flags false), clear the start time, notify.  The `sshClient` variable itself
is not nulled by this callback. -/
def vmCloseEvent (st : VMState) : VMState :=
  { st with vmStatus := { connected := false, connecting := false,
                          host := none, username := none, lastError := none },
            connectionStartTime := none }

/-- Embeds `getSSHClient`: the client, but only while the status says connected. -/
def getSSHClient (st : VMState) : Option Nat :=
  if st.sshClient.isSome && st.vmStatus.connected then st.sshClient else none

/-- Embeds `isVMConnected`. -/
def isVMConnected (st : VMState) : Bool := st.vmStatus.connected

/-! ### terminal.handler.ts: sessions and the command lifecycle tracker

JavaScript truthiness is preserved: a pending command that is `null` or the
empty string counts as absent, a start time that is `null` or `0` counts as
absent. -/

/-- A terminal session (`TerminalSession` of terminal.handler.ts).  The
`channel` field is non-null for every registered session (it is set at
creation and never cleared), so it is not modelled explicitly. -/
structure TerminalSession where
  id : String
  vaultId : String
  outputBuffer : List Char
  pendingCommand : Option (List Char)
  commandStartTime : Option Nat
deriving DecidableEq, Repr

/-- JS truthiness of a nullable string (`null` and `""` are falsy). -/
def truthyStr : Option (List Char) → Bool
  | none => false
  | some s => !s.isEmpty

/-- JS truthiness of a nullable number (`null` and `0` are falsy). -/
def truthyNat : Option Nat → Bool
  | none => false
  | some n => n ≠ 0

/-- A persisted `command_logs` row as written by `logCommandToDb`. -/
structure CommandLogRow where
  id : String
  targetId : String
  command : List Char
  output : List Char
  category : String
  attackPath : Option String
  durationMs : Nat
deriving DecidableEq, Repr

/-- Embeds `output.slice(-10000)`: the newest 10,000 characters. -/
def last10000 (l : List Char) : List Char := l.drop (l.length - 10000)

/-- Lowercasing, as `String.prototype.toLowerCase` on ASCII input. -/
def toLowerList (l : List Char) : List Char := l.map Char.toLower

/-- Case-sensitive literal then continuation (for regexes without the `i`
flag; the categorizer runs them on already-lowercased text). -/
def litThenCS (s : List Char) (k : List Char → Bool) (l : List Char) : Bool :=
  match stripCS s l with
  | some r => k r
  | none => false

/-- The one non-literal pattern of `categorizeCommand`: the source checks
`cmd.includes(p) || new RegExp(p).test(cmd)` for `p` the literal `find.*suid`. -/
def findSuidTest (cmd : List Char) : Bool :=
  containsSub (cs "find.*suid") cmd ||
  scanB (litThenCS (cs "find") (dotStar (litThenCS (cs "suid") patEnd))) cmd

/-- A plain keyword pattern of `categorizeCommand`:
`cmd.includes(p) || new RegExp(p).test(cmd)` — for a pattern without
metacharacters the regex test coincides with `includes`. -/
def catPat (p : String) : List Char → Bool := fun cmd => containsSub (cs p) cmd

/-- The ordered `categories` table of `categorizeCommand`. -/
def categoryTable : List (String × List (List Char → Bool)) :=
  [ ("recon", [catPat "nmap", catPat "masscan", catPat "rustscan", catPat "ping",
               catPat "traceroute", catPat "whois", catPat "dig", catPat "host"]),
    ("web", [catPat "gobuster", catPat "ffuf", catPat "dirb", catPat "nikto",
             catPat "wfuzz", catPat "sqlmap", catPat "burp", catPat "curl", catPat "wget"]),
    ("enum", [catPat "enum4linux", catPat "smbclient", catPat "rpcclient",
              catPat "ldapsearch", catPat "bloodhound", catPat "crackmapexec"]),
    ("exploit", [catPat "msfconsole", catPat "searchsploit", catPat "exploit",
                 catPat "payload"]),
    ("privesc", [catPat "linpeas", catPat "winpeas", catPat "linenum", catPat "sudo",
                 findSuidTest]),
    ("lateral", [catPat "psexec", catPat "wmiexec", catPat "evil-winrm", catPat "ssh",
                 catPat "rdp"]),
    ("creds", [catPat "hashcat", catPat "john", catPat "hydra", catPat "medusa",
               catPat "crackmapexec"]),
    ("general", [catPat "ls", catPat "cd", catPat "cat", catPat "grep", catPat "find",
                 catPat "ps", catPat "netstat"]) ]

/-- Embeds `categorizeCommand`: lowercase, then first category (in insertion order)
with a matching pattern; `other` when none matches. -/
def categorizeCommand (command : List Char) : String :=
  let cmd := toLowerList command
  match categoryTable.find? (fun g => g.2.any (fun t => t cmd)) with
  | some g => g.1
  | none => "other"

/-- The ordered `paths` table of `detectAttackPath` (plain `includes` tests). -/
def attackPathTable : List (String × List String) :=
  [ ("auth", ["login", "auth", "session", "token", "jwt", "oauth"]),
    ("access_control", ["idor", "bola", "privilege", "role", "permission"]),
    ("input", ["sqli", "xss", "ssti", "injection", "sqlmap"]),
    ("file", ["upload", "lfi", "rfi", "file", "path"]),
    ("ssrf", ["ssrf", "server-side", "internal"]),
    ("enumeration", ["enum", "scan", "discover", "recon"]),
    ("kerberos", ["kerb", "spn", "ticket", "asrep", "tgt"]),
    ("lateral", ["lateral", "pivot", "psexec", "wmi"]),
    ("privesc", ["privesc", "privilege", "root", "admin", "system"]) ]

/-- Embeds `detectAttackPath`: first bucket whose keyword occurs in the lowercased
command, else `null`. -/
def detectAttackPath (command : List Char) : Option String :=
  let cmd := toLowerList command
  (attackPathTable.find? (fun g => g.2.any (fun p => containsSub (cs p) cmd))).map
    (fun g => g.1)

/-! `detectPrompt` — the fixed `promptPatterns` family (no regex flags, so
case-sensitive; `$` anchors at the very end of the chunk and `\s*` before it
means "only whitespace may follow"). -/

/-- Pattern `/X\s*$/` for a literal `X`: after dropping trailing whitespace the text
ends with `X`. -/
def endsWsPat (pat : String) (text : List Char) : Bool :=
  ((cs pat).reverse).isPrefixOf (text.reverse.dropWhile isWsChar)

/-- Embeds `\s*\$\s*$` from the front of the remainder. -/
def tailDollar (l : List Char) : Bool :=
  match l.dropWhile isWsChar with
  | '$' :: r => r.all isWsChar
  | _ => false

/-- Embeds `.*:\s*\$\s*$` from the front (`.` does not cross line terminators). -/
def afterAtScan : List Char → Bool
  | [] => false
  | c :: rest => (c = ':' && tailDollar rest) || (c ≠ '\n' && c ≠ '\r' && afterAtScan rest)

/-- Pattern `/@.*:\s*\$\s*$/` -/
def atPromptTest (text : List Char) : Bool :=
  scanB (fun l =>
    match l with
    | '@' :: rest => afterAtScan rest
    | _ => false) text

/-- Embeds `detectPrompt` of terminal.handler.ts: some of the ten prompt patterns
matches the chunk. -/
def detectPrompt (text : List Char) : Bool :=
  endsWsPat "$" text || endsWsPat "#" text || endsWsPat ">" text ||
  containsSub (cs "┌──(") text || containsSub (cs "└─$") text ||
  endsWsPat "]$" text || endsWsPat "]#" text ||
  atPromptTest text ||
  containsSub (cs "kali@") text || containsSub (cs "root@") text

/-! ### command lifecycle state transitions

`logCommandToDb` resolves a target through
`SELECT id FROM targets WHERE vault_id = ? LIMIT 1`; the `targets` relation
is modelled as the list of `(vault_id, id)` pairs of the targets table, in
table order.  `Date.now()` values and `uuidv4()` results are explicit
parameters. -/

/-- First target of a vault, if any. -/
def lookupTarget (targets : List (String × String)) (vaultId : String) : Option String :=
  (targets.find? (fun t => t.1 = vaultId)).map (fun t => t.2)

/-- Embeds `logCommandToDb`: categorize, resolve the first target of the vault; with a
target, produce the `command_logs` row (output truncated to the newest 10,000
characters); without one, skip the durable write. -/
def logCommandToDb (targets : List (String × String)) (newId vaultId : String)
    (command output : List Char) (duration : Nat) : Option CommandLogRow :=
  let category := categorizeCommand command
  let attackPath := detectAttackPath command
  match lookupTarget targets vaultId with
  | some tid =>
    some { id := newId, targetId := tid, command := command, output := last10000 output,
           category := category, attackPath := attackPath, durationMs := duration }
  | none => none

/-- A session together with the `command_logs` rows written so far. -/
structure TermState where
  session : TerminalSession
  logs : List CommandLogRow
deriving DecidableEq, Repr

/-- Embeds `logCommandComplete`: a no-op unless both the pending command and the
start time are truthy; otherwise build and persist the record and reset the
session tracking fields. -/
def logCommandComplete (targets : List (String × String)) (now : Nat) (newId : String)
    (st : TermState) : TermState :=
  if !(truthyStr st.session.pendingCommand) || !(truthyNat st.session.commandStartTime) then
    st
  else
    let command := st.session.pendingCommand.getD []
    let start := st.session.commandStartTime.getD 0
    let row? := logCommandToDb targets newId st.session.vaultId command
      st.session.outputBuffer (now - start)
    { session :=
        { st.session with
          pendingCommand := none, commandStartTime := none, outputBuffer := [] },
      logs := st.logs ++ row?.toList }

/-- The channel data callback: broadcast (UI passthrough, no state),
then — only while a pending command is truthy — append the chunk to the
output buffer and complete the command when the chunk matches a prompt. -/
def dataEvent (targets : List (String × String)) (now : Nat) (newId : String)
    (st : TermState) (text : List Char) : TermState :=
  if truthyStr st.session.pendingCommand then
    let st1 := { st with
      session := { st.session with outputBuffer := st.session.outputBuffer ++ text } }
    if detectPrompt text then logCommandComplete targets now newId st1 else st1
  else st

/-- The channel stderr data callback: append while pending, never a
completion signal. -/
def stderrEvent (st : TermState) (text : List Char) : TermState :=
  if truthyStr st.session.pendingCommand then
    { st with session := { st.session with outputBuffer := st.session.outputBuffer ++ text } }
  else st

/-- The `terminal:logCommand` ipc handler (session already resolved): flush a
truthy pending command first, then start tracking the new one with a cleared
buffer. -/
def logCommandStartEvent (targets : List (String × String)) (now : Nat) (newId : String)
    (st : TermState) (command : List Char) : TermState :=
  let st1 := if truthyStr st.session.pendingCommand
             then logCommandComplete targets now newId st
             else st
  { st1 with
    session :=
      { st1.session with
        pendingCommand := some command, commandStartTime := some now, outputBuffer := [] } }

/-! ### the process-global state: connection, session registry, logs -/

/-- The whole mutable state the claims range over: the connection manager
state, the `terminals` map (insertion-ordered key/session pairs), the
`command_logs` rows and the `targets` relation. -/
structure GlobalState where
  vm : VMState
  terminals : List (String × TerminalSession)
  logs : List CommandLogRow
  targets : List (String × String)
deriving DecidableEq, Repr

/-- The channel close callback for one session: flush a truthy
pending command, then remove the session from the registry (and raise the
exit notification, which carries no state). -/
def channelCloseEvent (now : Nat) (newId : String) (tid : String) (sess : TerminalSession)
    (g : GlobalState) : GlobalState :=
  let ts : TermState := { session := sess, logs := g.logs }
  let ts2 := if truthyStr sess.pendingCommand
             then logCommandComplete g.targets now newId ts
             else ts
  { g with logs := ts2.logs, terminals := g.terminals.filter (fun e => e.1 ≠ tid) }

/-- The `terminal:close` ipc handler: request channel closure and delete the
registry entry at once (the flush happens in the channel close callback that
the transport then delivers). -/
def terminalCloseHandler (g : GlobalState) (tid : String) : GlobalState :=
  { g with terminals := g.terminals.filter (fun e => e.1 ≠ tid) }

/-- Operator-initiated close, end to end: the `terminal:close` handler
followed by the channel `close` event that `channel.close()` provokes for the
session object captured in the callback closure. -/
def terminalCloseSeq (now : Nat) (newId : String) (g : GlobalState) (tid : String) :
    GlobalState :=
  match g.terminals.find? (fun e => e.1 = tid) with
  | some e => channelCloseEvent now newId tid e.2 (terminalCloseHandler g tid)
  | none => terminalCloseHandler g tid

/-- Channel close events delivered to each listed session in order, with
fresh ids from `idGen` starting at index `k`. -/
def cascadeChannelCloses (idGen : Nat → String) (now : Nat) :
    Nat → List (String × TerminalSession) → GlobalState → GlobalState
  | _, [], g => g
  | k, e :: rest, g =>
    cascadeChannelCloses idGen now (k + 1) rest (channelCloseEvent now (idGen k) e.1 e.2 g)

/-- Remote-initiated connection loss: the ssh2 transport fires `close` on the
client (the vm.handler callback) and on every open channel (the
terminal.handler callbacks). -/
def remoteCloseEvent (idGen : Nat → String) (now : Nat) (g : GlobalState) : GlobalState :=
  cascadeChannelCloses idGen now 0 g.terminals { g with vm := vmCloseEvent g.vm }

/-- Result shape of the `terminal:create` ipc handler. -/
inductive CreateResult
  | ok (terminalId : String)
  | err (msg : String)
deriving DecidableEq, Repr

/-- The `terminal:create` ipc handler: refuse without a connected VM, then
without a usable client; otherwise open a shell channel (outcome passed in)
and on success register a fresh session. -/
def terminalCreate (g : GlobalState) (vaultId newId : String)
    (shellOutcome : Except String Unit) : CreateResult × GlobalState :=
  if !(isVMConnected g.vm) then
    (.err "VM not connected. Please connect to VM first.", g)
  else
    match getSSHClient g.vm with
    | none => (.err "SSH client not available", g)
    | some _ =>
      match shellOutcome with
      | .error m => (.err m, g)
      | .ok _ =>
        let sess : TerminalSession := { id := newId, vaultId := vaultId, outputBuffer := [],
                                        pendingCommand := none, commandStartTime := none }
        (.ok newId, { g with terminals := g.terminals ++ [(newId, sess)] })

/-- A sequence of inbound data events for one session, each tagged with its
`Date.now()` and `uuidv4()` values: `(now, newId, chunk)`. -/
def dataEvents (targets : List (String × String))
    (events : List (Nat × String × List Char)) (st : TermState) : TermState :=
  events.foldl (fun st e => dataEvent targets e.1 e.2.1 st e.2.2) st

/-- Concatenation of the chunk texts of a tagged event sequence. -/
def chunkConcat : List (Nat × String × List Char) → List Char
  | [] => []
  | e :: rest => e.2.2 ++ chunkConcat rest

/-! ## Theorems -/

/-- The upsert handler always leaves a row with the requested key carrying
the requested status: the conflicting row is updated when one exists, a fresh
row is inserted otherwise. -/
theorem dbUpdateProgress_applies (db : List ProgressRow) (newId : String) (now : Nat)
    (tid pathId stepId status : String) (notes : Option String) (fc : Option Nat) :
    ∃ r ∈ dbUpdateProgress newId now tid pathId stepId status notes fc db,
      r.targetId = tid ∧ r.pathId = pathId ∧ r.stepId = stepId ∧ r.status = status := by
  by_cases h :
      db.any (fun r => r.targetId = tid && r.pathId = pathId && r.stepId = stepId) = true
  · obtain ⟨r0, hr0, hcond⟩ := List.any_eq_true.mp h
    have h1 : (r0.targetId = tid ∧ r0.pathId = pathId) ∧ r0.stepId = stepId := by
      simpa [Bool.and_eq_true, decide_eq_true_iff] using hcond
    simp only [dbUpdateProgress, h, if_true]
    refine ⟨_, List.mem_map_of_mem _ hr0, ?_⟩
    simp [h1.1.1, h1.1.2, h1.2]
  · simp only [dbUpdateProgress, h, if_false]
    refine ⟨_, List.mem_append_right _ (List.mem_singleton.mpr rfl), ?_⟩
    simp

/-- C4: for every `(targetId, pathId, stepId)` key and every status value —
downgrades from `completed` included — the operator-driven setStatus
(the `db:attackPaths:updateProgress` handler invoked by the Attack Paths UI)
applies the given status and creates the row when none exists (upsert): after
the call a row with that key and that status exists. -/
theorem claim_C4 (db : List ProgressRow) (newId : String) (now : Nat)
    (tid pathId stepId status : String) (notes : Option String) (fc : Option Nat) :
    ∃ r ∈ dbUpdateProgress newId now tid pathId stepId status notes fc db,
      r.targetId = tid ∧ r.pathId = pathId ∧ r.stepId = stepId ∧ r.status = status :=
  dbUpdateProgress_applies db newId now tid pathId stepId status notes fc

/-- C8: on the text `22/tcp open ssh OpenSSH 8.2` the service detector
returns exactly one detected service — named `ssh` with confidence 0.9 (and
port 22 from the capture group) — and the recommendations derived from that
result contain a `Brute Force` entry whose commands include an `hydra`
template. -/
theorem claim_C8 :
    analyzeOutput (cs "22/tcp open ssh OpenSSH 8.2") =
      [{ name := "ssh", port := some 22, version := none, confidence := 9 / 10 }] ∧
    ∃ r ∈ getRecommendations (analyzeOutput (cs "22/tcp open ssh OpenSSH 8.2")),
      r.category = "Brute Force" ∧ ∃ c ∈ r.commands, containsSub (cs "hydra") (cs c) = true :=
  ⟨rfl, by decide⟩

/-- C6: while the connection phase is not `Connected`, `terminal:create`
(the session.open operation) fails with the not-connected error for every
owner context, and the whole state — the session registry included — is left
unchanged. -/
theorem claim_C6 (g : GlobalState) (vaultId newId : String)
    (shellOutcome : Except String Unit) (h : phase g.vm ≠ Phase.Connected) :
    terminalCreate g vaultId newId shellOutcome =
      (CreateResult.err "VM not connected. Please connect to VM first.", g) := by
  have hc : g.vm.vmStatus.connected = false := by
    cases hcv : g.vm.vmStatus.connected
    · rfl
    · exact absurd (by simp [phase, hcv]) h
  simp [terminalCreate, isVMConnected, hc]

/-- Witness for C6 at a concrete disconnected state. -/
theorem claim_C6_witness :
    phase (⟨none, ⟨false, false, none, none, none⟩, none⟩ : VMState) ≠ Phase.Connected ∧
    terminalCreate ⟨⟨none, ⟨false, false, none, none, none⟩, none⟩, [], [], []⟩ "vault"
        "term" (Except.ok ()) =
      (CreateResult.err "VM not connected. Please connect to VM first.",
       ⟨⟨none, ⟨false, false, none, none, none⟩, none⟩, [], [], []⟩) :=
  ⟨by decide, claim_C6 _ _ _ _ (by decide)⟩

/-- C9: with the phase already Connected (a live client and
`vmStatus.connected`), two sequential `vm:connect` calls both return success
(`Already connected`), leave the state untouched and emit no status-changed
notification at all — in particular no transition into Connecting. -/
theorem claim_C9 (st : VMState) (c : Nat)
    (h1 : st.vmStatus.connected = true) (h2 : st.sshClient = some c)
    (host1 user1 host2 user2 : String) (cl1 cl2 n1 n2 : Nat) (o1 o2 : ConnOutcome) :
    vmConnect st host1 user1 cl1 o1 n1 =
      ({ success := true, message := some "Already connected", error := none }, st, []) ∧
    vmConnect (vmConnect st host1 user1 cl1 o1 n1).2.1 host2 user2 cl2 o2 n2 =
      ({ success := true, message := some "Already connected", error := none }, st, []) := by
  have hfst : vmConnect st host1 user1 cl1 o1 n1 =
      ({ success := true, message := some "Already connected", error := none }, st, []) := by
    simp [vmConnect, h1, h2]
  refine ⟨hfst, ?_⟩
  rw [hfst]
  simp [vmConnect, h1, h2]

/-- Witness for C9 at a concrete connected state. -/
theorem claim_C9_witness :
    (⟨some 0, ⟨true, false, some "h", some "u", none⟩, some 5⟩ : VMState).vmStatus.connected
        = true ∧
    (⟨some 0, ⟨true, false, some "h", some "u", none⟩, some 5⟩ : VMState).sshClient = some 0 ∧
    (vmConnect ⟨some 0, ⟨true, false, some "h", some "u", none⟩, some 5⟩ "h2" "u2" 1 .ready 7 =
      ({ success := true, message := some "Already connected", error := none },
       ⟨some 0, ⟨true, false, some "h", some "u", none⟩, some 5⟩, []) ∧
     vmConnect (vmConnect ⟨some 0, ⟨true, false, some "h", some "u", none⟩, some 5⟩
           "h2" "u2" 1 .ready 7).2.1 "h3" "u3" 2 .ready 9 =
      ({ success := true, message := some "Already connected", error := none },
       ⟨some 0, ⟨true, false, some "h", some "u", none⟩, some 5⟩, [])) :=
  ⟨rfl, rfl, claim_C9 _ 0 rfl rfl "h2" "u2" "h3" "u3" 1 2 7 9 .ready .ready⟩

/-- A channel close event never touches the connection manager state. -/
theorem channelCloseEvent_vm (now : Nat) (newId tid : String) (sess : TerminalSession)
    (g : GlobalState) : (channelCloseEvent now newId tid sess g).vm = g.vm := rfl

/-- The channel-close cascade never touches the connection manager state. -/
theorem cascade_vm (idGen : Nat → String) (now : Nat)
    (l : List (String × TerminalSession)) : ∀ (k : Nat) (g : GlobalState),
    (cascadeChannelCloses idGen now k l g).vm = g.vm := by
  induction l with
  | nil => intro k g; rfl
  | cons e rest ih =>
    intro k g
    simp only [cascadeChannelCloses]
    rw [ih, channelCloseEvent_vm]

/-- After close events for a list of keys covering every registered session,
the registry is empty. -/
theorem cascade_terminals_nil (idGen : Nat → String) (now : Nat)
    (l : List (String × TerminalSession)) : ∀ (k : Nat) (g : GlobalState),
    (∀ e ∈ g.terminals, ∃ x ∈ l, e.1 = x.1) →
    (cascadeChannelCloses idGen now k l g).terminals = [] := by
  induction l with
  | nil =>
    intro k g h
    have hnil : g.terminals = [] := by
      apply List.eq_nil_iff_forall_not_mem.mpr
      intro e he
      obtain ⟨x, hx, _⟩ := h e he
      exact (List.not_mem_nil x) hx
    simpa [cascadeChannelCloses] using hnil
  | cons x rest ih =>
    intro k g h
    simp only [cascadeChannelCloses]
    apply ih
    intro e he
    have he2 : e ∈ g.terminals ∧ e.1 ≠ x.1 := by
      simpa [channelCloseEvent] using he
    obtain ⟨y, hy, hey⟩ := h e he2.1
    rcases List.mem_cons.mp hy with hyx | hyr
    · exact absurd (hyx ▸ hey) he2.2
    · exact ⟨y, hyr, hey⟩

/-- C3: a remote-initiated close of the shared connection (the transport
fires `close` on the client and on every open channel) ends with the
connection phase Disconnected and an empty session registry: no terminal
session survives the loss of the Connection Manager connection. -/
theorem claim_C3 (idGen : Nat → String) (now : Nat) (g : GlobalState) :
    (remoteCloseEvent idGen now g).terminals = [] ∧
    phase (remoteCloseEvent idGen now g).vm = Phase.Disconnected := by
  constructor
  · unfold remoteCloseEvent
    apply cascade_terminals_nil
    intro e he
    exact ⟨e, he, rfl⟩
  · unfold remoteCloseEvent
    rw [cascade_vm]
    simp [vmCloseEvent, phase]

/-- C10: while a command is pending, any inbound chunk containing `root@` or
`kali@` anywhere — even mid-stream, not only as a trailing prompt — is taken
as a completion signal: the pending command completes at once and exactly one
command record is persisted, carrying the output accumulated so far plus this
chunk. -/
theorem claim_C10 (targets : List (String × String)) (now : Nat) (newId : String)
    (st : TermState) (text : List Char) (tid : String)
    (hpend : truthyStr st.session.pendingCommand = true)
    (hstart : truthyNat st.session.commandStartTime = true)
    (hsig : containsSub (cs "root@") text = true ∨ containsSub (cs "kali@") text = true)
    (htarget : lookupTarget targets st.session.vaultId = some tid) :
    dataEvent targets now newId st text =
      { session :=
          { st.session with
            pendingCommand := none, commandStartTime := none, outputBuffer := [] },
        logs := st.logs ++
          [{ id := newId, targetId := tid,
             command := st.session.pendingCommand.getD [],
             output := last10000 (st.session.outputBuffer ++ text),
             category := categorizeCommand (st.session.pendingCommand.getD []),
             attackPath := detectAttackPath (st.session.pendingCommand.getD []),
             durationMs := now - st.session.commandStartTime.getD 0 }] } := by
  have hprompt : detectPrompt text = true := by
    unfold detectPrompt
    rcases hsig with h | h <;> simp [h]
  simp [dataEvent, hpend, hprompt, logCommandComplete, hstart, logCommandToDb, htarget]

/-- Witness for C10: a mid-output chunk `abroot@cd` completes the pending
command. -/
theorem claim_C10_witness :
    truthyStr (some (cs "nc -lvnp 4444")) = true ∧
    truthyNat (some 3) = true ∧
    containsSub (cs "root@") (cs "abroot@cd") = true ∧
    lookupTarget [("v1", "t1")] "v1" = some "t1" ∧
    dataEvent [("v1", "t1")] 9 "id9"
        ⟨⟨"s1", "v1", cs "out", some (cs "nc -lvnp 4444"), some 3⟩, []⟩ (cs "abroot@cd") =
      { session := ⟨"s1", "v1", [], none, none⟩,
        logs := [] ++
          [{ id := "id9", targetId := "t1", command := cs "nc -lvnp 4444",
             output := last10000 (cs "out" ++ cs "abroot@cd"),
             category := categorizeCommand (cs "nc -lvnp 4444"),
             attackPath := detectAttackPath (cs "nc -lvnp 4444"),
             durationMs := 9 - 3 }] } :=
  ⟨by decide, by decide, by decide, rfl,
   claim_C10 [("v1", "t1")] 9 "id9"
     ⟨⟨"s1", "v1", cs "out", some (cs "nc -lvnp 4444"), some 3⟩, []⟩ (cs "abroot@cd") "t1"
     (by decide) (by decide) (Or.inl (by decide)) rfl⟩

/-- C5: closing a session that still has a live pending command — before any
prompt matched — force-flushes it: exactly one command record is appended,
carrying exactly the output accumulated so far, and the session is removed;
the pending command is not silently lost. -/
theorem claim_C5 (g : GlobalState) (tid : String) (sess : TerminalSession)
    (now : Nat) (newId : String) (target : String)
    (hfind : g.terminals.find? (fun e => e.1 = tid) = some (tid, sess))
    (hpend : truthyStr sess.pendingCommand = true)
    (hstart : truthyNat sess.commandStartTime = true)
    (htarget : lookupTarget g.targets sess.vaultId = some target) :
    (terminalCloseSeq now newId g tid).logs = g.logs ++
      [{ id := newId, targetId := target, command := sess.pendingCommand.getD [],
         output := last10000 sess.outputBuffer,
         category := categorizeCommand (sess.pendingCommand.getD []),
         attackPath := detectAttackPath (sess.pendingCommand.getD []),
         durationMs := now - sess.commandStartTime.getD 0 }] ∧
    (terminalCloseSeq now newId g tid).terminals =
      g.terminals.filter (fun e => e.1 ≠ tid) := by
  unfold terminalCloseSeq
  rw [hfind]
  constructor
  · simp [channelCloseEvent, terminalCloseHandler, hpend, logCommandComplete, hstart,
          logCommandToDb, htarget]
  · simp [channelCloseEvent, terminalCloseHandler, List.filter_filter]

/-- Witness for C5: closing a one-session registry with a pending `wget`
flushes exactly one record with the accumulated output. -/
theorem claim_C5_witness :
    ([("s2", (⟨"s2", "v2", cs "partial out", some (cs "wget x"), some 4⟩ : TerminalSession))].find?
        (fun e => e.1 = "s2") =
      some ("s2", (⟨"s2", "v2", cs "partial out", some (cs "wget x"), some 4⟩ : TerminalSession))) ∧
    truthyStr (some (cs "wget x")) = true ∧
    truthyNat (some 4) = true ∧
    lookupTarget [("v2", "t2")] "v2" = some "t2" ∧
    ((terminalCloseSeq 10 "idA"
        ⟨⟨none, ⟨false, false, none, none, none⟩, none⟩,
         [("s2", ⟨"s2", "v2", cs "partial out", some (cs "wget x"), some 4⟩)], [], [("v2", "t2")]⟩
        "s2").logs = [] ++
      [{ id := "idA", targetId := "t2", command := (some (cs "wget x")).getD [],
         output := last10000 (cs "partial out"),
         category := categorizeCommand ((some (cs "wget x")).getD []),
         attackPath := detectAttackPath ((some (cs "wget x")).getD []),
         durationMs := 10 - (some 4).getD 0 }] ∧
     (terminalCloseSeq 10 "idA"
        ⟨⟨none, ⟨false, false, none, none, none⟩, none⟩,
         [("s2", ⟨"s2", "v2", cs "partial out", some (cs "wget x"), some 4⟩)], [], [("v2", "t2")]⟩
        "s2").terminals =
       [("s2", ⟨"s2", "v2", cs "partial out", some (cs "wget x"), some 4⟩)].filter
         (fun e => e.1 ≠ "s2")) :=
  ⟨by decide, by decide, by decide, rfl,
   claim_C5
     ⟨⟨none, ⟨false, false, none, none, none⟩, none⟩,
      [("s2", ⟨"s2", "v2", cs "partial out", some (cs "wget x"), some 4⟩)], [], [("v2", "t2")]⟩
     "s2" ⟨"s2", "v2", cs "partial out", some (cs "wget x"), some 4⟩ 10 "idA" "t2"
     (by decide) (by decide) (by decide) rfl⟩

/-- One engine step preserves a completed row untouched (its id is a primary
key and the freshly generated id differs from it), and keeps the row uniquely
identified by its id. -/
theorem enginePathStep_keeps_completed (tid nid : String) (p : PathProgress)
    (d : List ProgressRow) (r : ProgressRow)
    (hdone : r.status = "completed") (hnid : nid ≠ r.id)
    (hmem : r ∈ d) (hkey : ∀ row ∈ d, row.id = r.id → row = r) :
    r ∈ enginePathStep tid nid p d ∧
    ∀ row ∈ enginePathStep tid nid p d, row.id = r.id → row = r := by
  cases hfind : d.find? (fun row => row.targetId = tid && row.pathId = p.path) with
  | none =>
    simp only [enginePathStep, hfind]
    constructor
    · exact List.mem_append_left _ hmem
    · intro row hrow hid
      rcases List.mem_append.mp hrow with h1 | h1
      · exact hkey row h1 hid
      · have hrow_eq := List.mem_singleton.mp h1
        subst hrow_eq
        simp only at hid
        exact absurd hid hnid
  | some existing =>
    simp only [enginePathStep, hfind]
    have hex_mem : existing ∈ d := List.mem_of_find?_eq_some hfind
    by_cases hst : existing.status = "completed"
    · rw [if_neg (by simp [hst])]
      exact ⟨hmem, hkey⟩
    · rw [if_pos hst]
      have hneid : existing.id ≠ r.id := by
        intro h
        have hex_r := hkey existing hex_mem h
        exact hst (by rw [hex_r]; exact hdone)
      constructor
      · refine List.mem_map.mpr ⟨r, hmem, ?_⟩
        rw [if_neg (fun h => hneid h.symm)]
      · intro row hrow hid
        obtain ⟨row0, hrow0, hfeq⟩ := List.mem_map.mp hrow
        have hid_keep :
            (if row0.id = existing.id then { row0 with status := p.status } else row0).id =
              row0.id := by
          split <;> rfl
        have hid0 : row0.id = r.id := by
          rw [← hfeq, hid_keep] at hid
          exact hid
        have hrow0r := hkey row0 hrow0 hid0
        rw [← hfeq, hrow0r, if_neg (fun h => hneid h.symm)]

/-- The whole engine update loop preserves a completed row untouched. -/
theorem updateAux_keeps_completed (idGen : Nat → String) (tid : String)
    (r : ProgressRow) (hdone : r.status = "completed")
    (hfresh : ∀ n, idGen n ≠ r.id) :
    ∀ (progress : List PathProgress) (k : Nat) (d : List ProgressRow),
    r ∈ d → (∀ row ∈ d, row.id = r.id → row = r) →
    r ∈ updatePathProgressAux idGen tid k progress d ∧
    ∀ row ∈ updatePathProgressAux idGen tid k progress d, row.id = r.id → row = r := by
  intro progress
  induction progress with
  | nil =>
    intro k d hmem hkey
    exact ⟨hmem, hkey⟩
  | cons p rest ih =>
    intro k d hmem hkey
    simp only [updatePathProgressAux]
    have step := enginePathStep_keeps_completed tid (idGen k) p d r hdone (hfresh k) hmem hkey
    exact ih (k + 1) _ step.1 step.2

/-- C1: once a progress row is `completed`, every engine-driven update — a
direct `updatePathProgress` with arbitrary signals, or a full `analyze` run —
leaves the row (its status in particular) unchanged, while an explicit
operator setStatus on the same key still applies any new status.  Row ids are
primary keys and generated ids are fresh. -/
theorem claim_C1 (idGen : Nat → String) (tid : String) (progress : List PathProgress)
    (db : List ProgressRow) (r : ProgressRow)
    (hmem : r ∈ db) (hdone : r.status = "completed")
    (hkey : ∀ row ∈ db, row.id = r.id → row = r)
    (hfresh : ∀ n, idGen n ≠ r.id) :
    r ∈ updatePathProgress idGen tid progress db ∧
    (∀ (now0 : Nat) (output : List Char) (targetsT : List TargetRow),
      r ∈ ((analyze idGen now0 tid output ⟨targetsT, db⟩).2).pathdb) ∧
    (∀ (newId : String) (now : Nat) (status : String) (notes : Option String)
        (fc : Option Nat),
      ∃ r2 ∈ dbUpdateProgress newId now r.targetId r.pathId r.stepId status notes fc
          (updatePathProgress idGen tid progress db),
        r2.targetId = r.targetId ∧ r2.pathId = r.pathId ∧ r2.stepId = r.stepId ∧
        r2.status = status) := by
  refine ⟨?_, ?_, ?_⟩
  · exact (updateAux_keeps_completed idGen tid r hdone hfresh progress 0 db hmem hkey).1
  · intro now0 output targetsT
    by_cases hsvc : (analyzeOutput output).isEmpty = true <;>
      by_cases hpp : (detectPathProgress now0 output).isEmpty = true <;>
        simp only [analyze, hsvc, hpp, if_true, if_false] <;>
        first
          | exact hmem
          | exact (updateAux_keeps_completed idGen tid r hdone hfresh _ 0 db hmem hkey).1
  · intro newId now status notes fc
    exact dbUpdateProgress_applies _ newId now _ _ _ status notes fc

/-- Witness for C1: one completed row, one detection signal on its path, a
constant fresh id generator; the row survives the engine update and the
operator downgrade lands. -/
theorem claim_C1_witness :
    ((⟨"row1", "t1", "p1", "s1", "completed", none, 0, some 10⟩ : ProgressRow) ∈
        [(⟨"row1", "t1", "p1", "s1", "completed", none, 0, some 10⟩ : ProgressRow)]) ∧
    (⟨"row1", "t1", "p1", "s1", "completed", none, 0, some 10⟩ : ProgressRow).status =
        "completed" ∧
    (∀ row ∈ [(⟨"row1", "t1", "p1", "s1", "completed", none, 0, some 10⟩ : ProgressRow)],
      row.id = (⟨"row1", "t1", "p1", "s1", "completed", none, 0, some 10⟩ : ProgressRow).id →
      row = ⟨"row1", "t1", "p1", "s1", "completed", none, 0, some 10⟩) ∧
    (∀ n : Nat, (fun (_ : Nat) => "fresh") n ≠
      (⟨"row1", "t1", "p1", "s1", "completed", none, 0, some 10⟩ : ProgressRow).id) ∧
    ((⟨"row1", "t1", "p1", "s1", "completed", none, 0, some 10⟩ : ProgressRow) ∈
      updatePathProgress (fun _ => "fresh") "t1" [⟨"p1", "detected", "desc", 5⟩]
        [⟨"row1", "t1", "p1", "s1", "completed", none, 0, some 10⟩]) ∧
    (∃ r2 ∈ dbUpdateProgress "u2" 7 "t1" "p1" "s1" "pending" none none
        (updatePathProgress (fun _ => "fresh") "t1" [⟨"p1", "detected", "desc", 5⟩]
          [⟨"row1", "t1", "p1", "s1", "completed", none, 0, some 10⟩]),
      r2.targetId = "t1" ∧ r2.pathId = "p1" ∧ r2.stepId = "s1" ∧ r2.status = "pending") :=
  ⟨by decide, by decide, by decide, by intro n; show ("fresh" : String) ≠ "row1"; decide,
   (claim_C1 (fun _ => "fresh") "t1" [⟨"p1", "detected", "desc", 5⟩]
     [⟨"row1", "t1", "p1", "s1", "completed", none, 0, some 10⟩]
     ⟨"row1", "t1", "p1", "s1", "completed", none, 0, some 10⟩
     (by decide) (by decide) (by decide) (by intro n; show ("fresh" : String) ≠ "row1"; decide)).1,
   (claim_C1 (fun _ => "fresh") "t1" [⟨"p1", "detected", "desc", 5⟩]
     [⟨"row1", "t1", "p1", "s1", "completed", none, 0, some 10⟩]
     ⟨"row1", "t1", "p1", "s1", "completed", none, 0, some 10⟩
     (by decide) (by decide) (by decide) (by intro n; show ("fresh" : String) ≠ "row1"; decide)).2.2 "u2" 7 "pending" none none⟩

/-- While a command is pending, a run of non-prompt chunks only accumulates:
the buffer grows by their concatenation, nothing else changes. -/
theorem dataEvents_accumulate (targets : List (String × String)) :
    ∀ (mids : List (Nat × String × List Char)) (st : TermState),
    truthyStr st.session.pendingCommand = true →
    (∀ e ∈ mids, detectPrompt e.2.2 = false) →
    dataEvents targets mids st =
      { st with
        session :=
          { st.session with outputBuffer := st.session.outputBuffer ++ chunkConcat mids } } := by
  intro mids
  induction mids with
  | nil =>
    intro st hpend _
    simp [dataEvents, chunkConcat]
  | cons e rest ih =>
    intro st hpend h
    have hne : detectPrompt e.2.2 = false := h e (List.mem_cons_self e rest)
    have hrest : ∀ x ∈ rest, detectPrompt x.2.2 = false :=
      fun x hx => h x (List.mem_cons_of_mem e hx)
    simp only [dataEvents, List.foldl_cons]
    have hstep : dataEvent targets e.1 e.2.1 st e.2.2 =
        { st with
          session := { st.session with outputBuffer := st.session.outputBuffer ++ e.2.2 } } := by
      simp [dataEvent, hpend, hne]
    rw [hstep]
    have hacc := ih { st with
        session := { st.session with outputBuffer := st.session.outputBuffer ++ e.2.2 } }
      hpend hrest
    simp only [dataEvents] at hacc
    rw [hacc]
    simp [chunkConcat, List.append_assoc]

/-- A chunk ending in `"$ "` matches the first prompt pattern `/\$\s*$/`. -/
theorem detectPrompt_dollar_space (f : List Char) (hf : cs "$ " <:+ f) :
    detectPrompt f = true := by
  obtain ⟨a, ha⟩ := hf
  have h2 : cs "$ " = ['$', ' '] := rfl
  rw [h2] at ha
  rw [← ha]
  have h3 : (a ++ ['$', ' ']).reverse.dropWhile isWsChar = '$' :: a.reverse := by
    rw [List.reverse_append]
    simp [List.dropWhile, isWsChar]
  have h4 : endsWsPat "$" (a ++ ['$', ' ']) = true := by
    unfold endsWsPat
    rw [h3]
    have h5 : (cs "$").reverse = ['$'] := by decide
    rw [h5]
    simp [List.isPrefixOf]
  simp [detectPrompt, h4]

/-- C2 (amended): after `logCommandStart` with `nmap -sV 10.0.0.1`, any run
of non-prompt chunks, then a chunk ending in `"$ "`, exactly one command
record is persisted; its output is the concatenation of the intervening
chunks *plus the completing prompt chunk itself* (the data callback appends
the chunk before testing for a prompt), truncated to the newest 10,000
characters, and its category is `recon`. -/
theorem claim_C2 (targets : List (String × String)) (st : TermState) (tid : String)
    (n0 : Nat) (id0 : String) (mids : List (Nat × String × List Char))
    (nf : Nat) (idf : String) (f : List Char)
    (hclean : truthyStr st.session.pendingCommand = false)
    (htarget : lookupTarget targets st.session.vaultId = some tid)
    (hn0 : 0 < n0)
    (hmids : ∀ e ∈ mids, detectPrompt e.2.2 = false)
    (hf : cs "$ " <:+ f) :
    dataEvent targets nf idf
        (dataEvents targets mids
          (logCommandStartEvent targets n0 id0 st (cs "nmap -sV 10.0.0.1"))) f =
      { session :=
          { st.session with
            pendingCommand := none, commandStartTime := none, outputBuffer := [] },
        logs := st.logs ++
          [{ id := idf, targetId := tid, command := cs "nmap -sV 10.0.0.1",
             output := last10000 (chunkConcat mids ++ f),
             category := "recon", attackPath := none, durationMs := nf - n0 }] } := by
  have hstart : logCommandStartEvent targets n0 id0 st (cs "nmap -sV 10.0.0.1") =
      { st with
        session :=
          { st.session with
            pendingCommand := some (cs "nmap -sV 10.0.0.1"),
            commandStartTime := some n0, outputBuffer := [] } } := by
    simp [logCommandStartEvent, hclean]
  rw [hstart]
  have hts : truthyStr (some (cs "nmap -sV 10.0.0.1")) = true := by decide
  rw [dataEvents_accumulate targets mids _ hts hmids]
  have hprompt := detectPrompt_dollar_space f hf
  have hn0ne : n0 ≠ 0 := Nat.pos_iff_ne_zero.mp hn0
  have hcat : categorizeCommand (cs "nmap -sV 10.0.0.1") = "recon" := by decide
  have hap : detectAttackPath (cs "nmap -sV 10.0.0.1") = none := by decide
  simp [dataEvent, hprompt, logCommandComplete, truthyNat, hn0ne, logCommandToDb, htarget,
        hcat, hap, hts]

/-- Witness for C2 (amended) at a concrete run: one intervening chunk, prompt
chunk `user$ `. -/
theorem claim_C2_witness :
    truthyStr ((⟨⟨"s1", "v1", [], none, none⟩, []⟩ : TermState)).session.pendingCommand
        = false ∧
    lookupTarget [("v1", "t1")] "v1" = some "t1" ∧
    0 < 1 ∧
    (∀ e ∈ [((2 : Nat), "i1", cs "port open\n")], detectPrompt e.2.2 = false) ∧
    cs "$ " <:+ cs "user$ " ∧
    dataEvent [("v1", "t1")] 3 "i2"
        (dataEvents [("v1", "t1")] [(2, "i1", cs "port open\n")]
          (logCommandStartEvent [("v1", "t1")] 1 "i0" ⟨⟨"s1", "v1", [], none, none⟩, []⟩
            (cs "nmap -sV 10.0.0.1"))) (cs "user$ ") =
      { session := { (⟨"s1", "v1", [], none, none⟩ : TerminalSession) with
          pendingCommand := none, commandStartTime := none, outputBuffer := [] },
        logs := [] ++
          [{ id := "i2", targetId := "t1", command := cs "nmap -sV 10.0.0.1",
             output := last10000 (chunkConcat [(2, "i1", cs "port open\n")] ++ cs "user$ "),
             category := "recon", attackPath := none, durationMs := 3 - 1 }] } :=
  ⟨by decide, rfl, by decide, by decide, by decide,
   claim_C2 [("v1", "t1")] ⟨⟨"s1", "v1", [], none, none⟩, []⟩ "t1" 1 "i0"
     [(2, "i1", cs "port open\n")] 3 "i2" (cs "user$ ")
     (by decide) rfl (by decide) (by decide) (by decide)⟩

/-- Counterexample to C2 as stated: with one intervening chunk
`port open\n` and prompt chunk `user$ `, the output of the produced record is
`port open\nuser$ `, not the bare concatenation of the intervening chunks —
the completing chunk is included. -/
theorem claim_C2_counterexample :
    ((dataEvent [("v1", "t1")] 3 "i2"
        (dataEvents [("v1", "t1")] [(2, "i1", cs "port open\n")]
          (logCommandStartEvent [("v1", "t1")] 1 "i0"
            (⟨⟨"s1", "v1", [], none, none⟩, []⟩ : TermState)
            (cs "nmap -sV 10.0.0.1"))) (cs "user$ ")).logs.map
        (fun r => r.output)) =
      [cs "port open\nuser$ "] ∧
    cs "port open\nuser$ " ≠ last10000 (chunkConcat [(2, "i1", cs "port open\n")]) := by
  refine ⟨?_, by decide⟩
  rfl

/-- Reading back the freshly written metadata after the overwrite: when the
target exists, the stored `detectedServices` are exactly those of the metadata. -/
theorem storedT_map_store (tid : String) (M : TargetMeta) :
    ∀ ts : List TargetRow, ts.any (fun t => t.id = tid) = true →
    ((ts.map (fun t => if t.id = tid then { t with metadata := some M } else t)).find?
        (fun t => t.id = tid)).bind (fun t => t.metadata.bind (fun m => m.detectedServices)) =
      M.detectedServices := by
  intro ts
  induction ts with
  | nil => intro h; simp at h
  | cons t rest ih =>
    intro h
    by_cases ht : t.id = tid
    · simp [ht]
    · have h2 : rest.any (fun t => t.id = tid) = true := by simpa [ht] using h
      rw [List.map_cons, if_neg ht, List.find?_cons_of_neg _ (by simp [ht])]
      exact ih h2

/-- The metadata overwrite keeps target ids, so target existence is stable. -/
theorem any_map_store (tid : String) (M : TargetMeta) :
    ∀ ts : List TargetRow,
    (ts.map (fun t => if t.id = tid then { t with metadata := some M } else t)).any
        (fun t => t.id = tid) = ts.any (fun t => t.id = tid) := by
  intro ts
  induction ts with
  | nil => rfl
  | cons t rest ih => by_cases ht : t.id = tid <;> simp [ht, ih]

/-- Embeds `storeDetectedServices` keeps target existence. -/
theorem store_preserves_any (tid : String) (now : Nat) (s : List DetectedService)
    (ts : List TargetRow) :
    (storeDetectedServices tid now s ts).any (fun t => t.id = tid) =
      ts.any (fun t => t.id = tid) := by
  unfold storeDetectedServices
  by_cases h : ts.any (fun t => t.id = tid) = true
  · rw [if_pos h, any_map_store]
  · rw [if_neg h]

/-- When the target exists, `storeDetectedServices` leaves exactly the given
services stored (overwrite semantics). -/
theorem storedT_after_store (tid : String) (now : Nat) (s : List DetectedService)
    (ts : List TargetRow) (h : ts.any (fun t => t.id = tid) = true) :
    storedServicesT (storeDetectedServices tid now s ts) tid = some s := by
  unfold storedServicesT storeDetectedServices
  rw [if_pos h]
  exact storedT_map_store tid ⟨some s, some now⟩ ts h

/-- The targets table after `analyze`: untouched when nothing was detected,
otherwise the stored overwrite; the path-progress write never touches it. -/
theorem analyze_targets (idGen : Nat → String) (now : Nat) (tid : String)
    (output : List Char) (st : AnalyzerState) :
    ((analyze idGen now tid output st).2).targets =
      if (analyzeOutput output).isEmpty then st.targets
      else storeDetectedServices tid now (analyzeOutput output) st.targets := by
  by_cases h1 : (analyzeOutput output).isEmpty = true <;>
    by_cases h2 : (detectPathProgress now output).isEmpty = true <;>
      simp [analyze, h1, h2]

/-- One `analyzeStep` preserves the seen-set invariant: every accumulated
name is in the seen set and the accumulated names are distinct. -/
theorem analyzeStep_invariant (output : List Char)
    (p : String × (List Char → Option RegexGroups))
    (seen : List String) (acc : List DetectedService)
    (h1 : ∀ s ∈ acc, seen.contains s.name = true)
    (h2 : (acc.map (fun s => s.name)).Nodup) :
    (∀ s ∈ (analyzeStep output (seen, acc) p).2,
        ((analyzeStep output (seen, acc) p).1).contains s.name = true) ∧
    ((analyzeStep output (seen, acc) p).2.map (fun s => s.name)).Nodup := by
  cases hscan : scanOpt p.2 output with
  | none =>
    simp only [analyzeStep, hscan]
    exact ⟨h1, h2⟩
  | some g =>
    cases g with
    | mk g1 g2 =>
      simp only [analyzeStep, hscan]
      by_cases hcon : seen.contains p.1 = true
      · rw [if_pos hcon]
        exact ⟨h1, h2⟩
      · have hconf : seen.contains p.1 = false := Bool.eq_false_iff.mpr hcon
        rw [if_neg hcon]
        constructor
        · intro s hs
          rcases List.mem_append.mp hs with hmem | hmem
          · have hin := h1 s hmem
            simp at hin ⊢
            exact Or.inr hin
          · simp only [List.mem_singleton] at hmem
            subst hmem
            simp
        · rw [List.map_append, List.nodup_append]
          refine ⟨h2, by simp, ?_⟩
          intro a ha hb
          simp only [List.map_cons, List.map_nil, List.mem_singleton] at hb
          subst hb
          obtain ⟨s, hs, hname⟩ := List.mem_map.mp ha
          have hsn := h1 s hs
          rw [hname] at hsn
          rw [hsn] at hconf
          simp at hconf

/-- The whole detection fold keeps every accumulated name in the seen set
and the accumulated names distinct. -/
theorem analyzeFold_invariant (output : List Char) :
    ∀ (pats : List (String × (List Char → Option RegexGroups)))
      (seen : List String) (acc : List DetectedService),
    (∀ s ∈ acc, seen.contains s.name = true) →
    (acc.map (fun s => s.name)).Nodup →
    (∀ s ∈ (pats.foldl (analyzeStep output) (seen, acc)).2,
        ((pats.foldl (analyzeStep output) (seen, acc)).1).contains s.name = true) ∧
    ((pats.foldl (analyzeStep output) (seen, acc)).2.map (fun s => s.name)).Nodup := by
  intro pats
  induction pats with
  | nil =>
    intro seen acc h1 h2
    exact ⟨h1, h2⟩
  | cons p rest ih =>
    intro seen acc h1 h2
    simp only [List.foldl_cons]
    have hstep := analyzeStep_invariant output p seen acc h1 h2
    exact ih _ _ hstep.1 hstep.2

/-- The services one `analyzeOutput` call returns carry pairwise distinct
names: the seen set keeps one entry per service. -/
theorem analyzeOutput_names_nodup (output : List Char) :
    ((analyzeOutput output).map (fun s => s.name)).Nodup :=
  (analyzeFold_invariant output servicePatterns [] []
    (fun s hs => absurd hs (List.not_mem_nil s)) List.nodup_nil).2

/-- C7: analysing the same text twice for the same target leaves the stored
`detectedServices` exactly as after the first call; the detector never
produces two entries with the same service name; and when anything was
detected and the target exists, the first call overwrote (not appended) the
stored set with exactly the detection result. -/
theorem claim_C7 (idGen1 idGen2 : Nat → String) (now1 now2 : Nat) (tid : String)
    (output : List Char) (st : AnalyzerState) :
    storedServices ((analyze idGen2 now2 tid output
        ((analyze idGen1 now1 tid output st).2)).2) tid =
      storedServices ((analyze idGen1 now1 tid output st).2) tid ∧
    ((analyzeOutput output).map (fun s => s.name)).Nodup ∧
    ((analyzeOutput output).isEmpty = false →
      st.targets.any (fun t => t.id = tid) = true →
      storedServices ((analyze idGen1 now1 tid output st).2) tid =
        some (analyzeOutput output)) := by
  have h1 := analyze_targets idGen1 now1 tid output st
  have h2 := analyze_targets idGen2 now2 tid output (analyze idGen1 now1 tid output st).2
  refine ⟨?_, analyzeOutput_names_nodup output, ?_⟩
  · unfold storedServices
    rw [h2, h1]
    by_cases hs : (analyzeOutput output).isEmpty = true
    · rw [if_pos hs, if_pos hs]
    · rw [if_neg hs, if_neg hs]
      by_cases hex : st.targets.any (fun t => t.id = tid) = true
      · have hex1 : (storeDetectedServices tid now1 (analyzeOutput output) st.targets).any
            (fun t => t.id = tid) = true := by
          rw [store_preserves_any]
          exact hex
        rw [storedT_after_store _ _ _ _ hex1, storedT_after_store _ _ _ _ hex]
      · have hid1 : storeDetectedServices tid now1 (analyzeOutput output) st.targets =
            st.targets := by
          unfold storeDetectedServices
          rw [if_neg hex]
        rw [hid1]
        have hid2 : storeDetectedServices tid now2 (analyzeOutput output) st.targets =
            st.targets := by
          unfold storeDetectedServices
          rw [if_neg hex]
        rw [hid2]
  · intro hne hex
    unfold storedServices
    rw [h1, if_neg (by simp [hne]), storedT_after_store _ _ _ _ hex]

/-- Witness for C7: a target `t1` with empty metadata, text
`22/tcp open ssh`; the detection is nonempty, the target exists, and the
stored services equal the detection result. -/
theorem claim_C7_witness :
    (analyzeOutput (cs "22/tcp open ssh")).isEmpty = false ∧
    ([(⟨"t1", none⟩ : TargetRow)].any (fun t => t.id = "t1")) = true ∧
    storedServices ((analyze (fun _ => "u") 11 "t1" (cs "22/tcp open ssh")
        ⟨[⟨"t1", none⟩], []⟩).2) "t1" =
      some (analyzeOutput (cs "22/tcp open ssh")) :=
  ⟨by decide, by decide,
   (claim_C7 (fun _ => "u") (fun _ => "u") 11 12 "t1" (cs "22/tcp open ssh")
     ⟨[⟨"t1", none⟩], []⟩).2.2 (by decide) (by decide)⟩

end Specter
